import Mathlib

/-!
Verification of the PCIDSS oracle gateway RPC surface

Shallow embedding of `src/pcidss/oracle/src/services/rpc.rs`: the error
taxonomy mapper, `submit_iso8583`, `get_transactions`, `get_bank_account`
and the authenticated batch balance query `get_batch_balances`, together
with proofs of the gateway's externally visible contracts.

Modelling conventions:
* Rust `Vec<u8>` byte buffers are modelled as `List Nat`.
* The canonical signing message is built from UTF-8 bytes of the account
  identifier strings; we model it at `Char` granularity (`List Char`).
  UTF-8 encoding is injective and distributes over concatenation, and all
  punctuation involved is single-byte ASCII, so equality and inequality of
  the modelled messages coincide with equality of the byte buffers.
* The store controllers and the ISO8583 message processor are external
  collaborators injected into the gateway; they are modelled as function
  parameters returning `Except DomainError _`, mirroring the Rust
  `Result<_, DomainError>`.
* Schnorr/sr25519 signature verification is external cryptography; it is
  modelled as an abstract boolean-valued function parameter, exactly as the
  gateway consumes it.
-/

/-- Internal domain failure taxonomy (`op_core::error::DomainError`):
four kinds, each carrying an internal message string. -/
inductive DomainError where
  | ApiError : String → DomainError
  | InternalServerError : String → DomainError
  | BadRequest : String → DomainError
  | NotFound : String → DomainError
deriving DecidableEq, Repr

/-- The caller-facing JSON-RPC error codes the gateway emits
(`jsonrpsee_types::error::ErrorCode`; the gateway only ever produces these
two members of that enumeration). -/
inductive ErrorCode where
  | InternalError
  | InvalidParams
deriving DecidableEq, Repr

/-- Bank account record, with the fields the gateway surface reads
(`op_core::bank_account::models::BankAccount`). -/
structure BankAccount where
  id : String
  card_number : String
  balance : Nat
  nonce : Nat
deriving DecidableEq, Repr

/-- Transaction record: identifier, owning bank account identifier and an
amount, opaque to the gateway (`op_core::transaction::models::Transaction`). -/
structure Transaction where
  id : String
  bank_account_id : String
  amount : Nat
deriving DecidableEq, Repr

/-- sr25519 public key of the OCW signer, opaque to the gateway. -/
structure PublicKey where
  bytes : List Nat
deriving DecidableEq, Repr

/-- sr25519 signatures are exactly 64 bytes; `Vec<u8> → [u8; 64]`
conversion (`signature.try_into()`) fails on any other length. -/
def SIGNATURE_SIZE : Nat := 64

/-- The error mapper used by `submit_iso8583` (rpc.rs lines 67-72) and by
the transaction-lookup arm of `get_transactions` (lines 95-100): the
`match err` collapsing `DomainError` onto the caller-facing codes. -/
def mapDomainError : DomainError → ErrorCode
  | .ApiError _ => .InternalError
  | .InternalServerError _ => .InternalError
  | .BadRequest _ => .InvalidParams
  | .NotFound _ => .InvalidParams

/-- Embedding of `submit_iso8583` (rpc.rs lines 55-77): delegate the raw buffer to the
message processor; on success return the processor's response bytes, on
failure map the domain error. The processor
(`process(raw) -> Result<bytes, DomainError>`) is an injected collaborator,
passed here as a function parameter. -/
def submit_iso8583 (process : List Nat → Except DomainError (List Nat))
    (iso_msg : List Nat) : Except ErrorCode (List Nat) :=
  match process iso_msg with
  | .ok result => .ok result
  | .error err => .error (mapDomainError err)

/-- Embedding of `get_transactions` (rpc.rs lines 79-104): look up the account by card
number, mapping any lookup error and a not-found account to
`InvalidParams`; then fetch the account's transactions, mapping a failure
there through `mapDomainError`. -/
def get_transactions
    (find_by_card_number : String → Except DomainError (Option BankAccount))
    (find_by_bank_account_id : String → Except DomainError (List Transaction))
    (card_number : String) : Except ErrorCode (List Transaction) :=
  match find_by_card_number card_number with
  | .error _ => .error .InvalidParams
  | .ok none => .error .InvalidParams
  | .ok (some bank_account) =>
    match find_by_bank_account_id bank_account.id with
    | .error err => .error (mapDomainError err)
    | .ok txs => .ok txs

/-- Embedding of `get_bank_account` (rpc.rs lines 106-120): look up by card number; any
store error and a not-found account both become `InvalidParams`. -/
def get_bank_account
    (find_by_card_number : String → Except DomainError (Option BankAccount))
    (card_number : String) : Except ErrorCode BankAccount :=
  match find_by_card_number card_number with
  | .error _ => .error .InvalidParams
  | .ok none => .error .InvalidParams
  | .ok (some ba) => .ok ba

/-- The canonical signing message built by `get_batch_balances`
(rpc.rs lines 131-143): push `[`, then for each account id push `"`, the
id's bytes, `"`, `,`; then `pop()` the last byte and push `]`.
`Vec::pop` on a possibly-empty buffer is `List.dropLast`. -/
def canonicalMessage (account_ids : List String) : List Char :=
  (account_ids.foldl
      (fun acc account_id => acc ++ '"' :: account_id.toList ++ ['"', ','])
      ['[']).dropLast ++ [']']

/-- One batch-lookup step per requested id (rpc.rs lines 150-166): the
`for` loop over `account_ids`, aborting the whole call with
`InvalidParams` on the first store error (`map_err(... InvalidParams)?`),
appending `(id, balance)` for a found account and skipping a missing one. -/
def batchLookup
    (find_by_account_id : String → Except DomainError (Option BankAccount)) :
    List String → Except ErrorCode (List (String × Nat))
  | [] => .ok []
  | account_id :: rest =>
    match find_by_account_id account_id with
    | .error _ => .error .InvalidParams
    | .ok none => batchLookup find_by_account_id rest
    | .ok (some ba) =>
      match batchLookup find_by_account_id rest with
      | .error e => .error e
      | .ok balances => .ok ((account_id, ba.balance) :: balances)

/-- Embedding of `get_batch_balances` (rpc.rs lines 122-169): decode the signature to
the fixed 64-byte size (`try_into`, failure → `InvalidParams`); build the
canonical message; verify the signature against it under the configured
OCW public key (failure → `InvalidParams`); then aggregate the balances.
`verify` models `sr25519::verify` and is an abstract parameter. -/
def get_batch_balances
    (verify : List Nat → List Char → PublicKey → Bool)
    (find_by_account_id : String → Except DomainError (Option BankAccount))
    (signer : PublicKey)
    (signature : List Nat) (account_ids : List String) :
    Except ErrorCode (List (String × Nat)) :=
  if signature.length = SIGNATURE_SIZE then
    let message := canonicalMessage account_ids
    if verify signature message signer then
      batchLookup find_by_account_id account_ids
    else
      .error .InvalidParams
  else
    .error .InvalidParams

/-- A quoted identifier, `"id"`. -/
def quoteWrap (s : List Char) : List Char := '"' :: s ++ ['"']

/-- Modelled from the spec: the body of the minified JSON array — the
quoted identifiers joined by commas with no whitespace. -/
def quotedJoin : List (List Char) → List Char
  | [] => []
  | [s] => quoteWrap s
  | s :: rest => quoteWrap s ++ ',' :: quotedJoin rest

/-- Modelled from the spec: the minified JSON-array encoding
`["id1","id2",...,"idN"]` of the identifier list, with no whitespace —
the byte sequence the spec says the canonical message must equal. -/
def minifiedJsonArray (account_ids : List String) : List Char :=
  '[' :: quotedJoin (account_ids.map String.toList) ++ [']']

section Helpers

/-- The batch loop aborts with `InvalidParams` as soon as some requested id
has a failing store lookup. -/
lemma batchLookup_error_of_find_error
    (find : String → Except DomainError (Option BankAccount)) :
    ∀ ids : List String, (∃ id ∈ ids, ∃ e, find id = .error e) →
      batchLookup find ids = .error .InvalidParams := by
  intro ids h
  induction ids with
  | nil => simp at h
  | cons a rest ih =>
    obtain ⟨id, hmem, e, he⟩ := h
    rcases List.mem_cons.mp hmem with rfl | hmem'
    · simp [batchLookup, he]
    · cases hf : find a with
      | error e2 => simp [batchLookup, hf]
      | ok v =>
        have hrest := ih ⟨id, hmem', e, he⟩
        cases v with
        | none => simp [batchLookup, hf, hrest]
        | some ba => simp [batchLookup, hf, hrest]

/-- Conversely, the batch loop only fails when some lookup failed, and the
only error code it ever emits is `InvalidParams`. -/
lemma batchLookup_error_exists
    (find : String → Except DomainError (Option BankAccount)) :
    ∀ (ids : List String) (c : ErrorCode), batchLookup find ids = .error c →
      c = .InvalidParams ∧ ∃ id ∈ ids, ∃ e, find id = .error e := by
  intro ids
  induction ids with
  | nil => intro c h; simp [batchLookup] at h
  | cons a rest ih =>
    intro c h
    cases hf : find a with
    | error e => simp [batchLookup, hf] at h; exact ⟨h.symm, a, by simp, e, hf⟩
    | ok v =>
      cases v with
      | none =>
        simp only [batchLookup, hf] at h
        obtain ⟨hc, id, hm, e, he⟩ := ih c h
        exact ⟨hc, id, by simp [hm], e, he⟩
      | some ba =>
        cases hr : batchLookup find rest with
        | error e2 =>
          simp only [batchLookup, hf, hr] at h
          obtain ⟨hc, id, hm, e, he⟩ := ih e2 hr
          cases h
          exact ⟨hc, id, by simp [hm], e, he⟩
        | ok l => simp [batchLookup, hf, hr] at h

/-- When every lookup succeeds, the batch loop returns exactly the found
`(id, balance)` pairs in input order, skipping missing accounts. -/
lemma batchLookup_eq_filterMap
    (find : String → Except DomainError (Option BankAccount)) :
    ∀ ids : List String, (∀ id ∈ ids, ∃ r, find id = .ok r) →
      batchLookup find ids = .ok (ids.filterMap (fun id =>
        match find id with
        | .ok (some ba) => some (id, ba.balance)
        | _ => none)) := by
  intro ids h
  induction ids with
  | nil => simp [batchLookup]
  | cons a rest ih =>
    obtain ⟨r, hr⟩ := h a (List.mem_cons_self a rest)
    have hrest := ih (fun id hm => h id (List.mem_cons_of_mem _ hm))
    cases r with
    | none => simp [batchLookup, hr, hrest]
    | some ba => simp [batchLookup, hr, hrest]

end Helpers

/-- C3: the error mapper used by `submit_iso8583` is total over the four
domain failure kinds: `ApiError` and `InternalServerError` map to
`InternalError`, `BadRequest` and `NotFound` map to `InvalidParams`, and
every failure maps to exactly one of the two caller-facing codes. -/
theorem mapDomainError_total :
    (∀ s, mapDomainError (.ApiError s) = .InternalError) ∧
    (∀ s, mapDomainError (.InternalServerError s) = .InternalError) ∧
    (∀ s, mapDomainError (.BadRequest s) = .InvalidParams) ∧
    (∀ s, mapDomainError (.NotFound s) = .InvalidParams) ∧
    (∀ e, mapDomainError e = .InternalError ∨ mapDomainError e = .InvalidParams) := by
  refine ⟨fun s => rfl, fun s => rfl, fun s => rfl, fun s => rfl, fun e => ?_⟩
  cases e <;> simp [mapDomainError]

/-- C9: `submit_iso8583` hands the raw buffer to the processor; on
processor success it returns the processor's response bytes unchanged, on
processor failure it returns the mapped caller-facing error, and a success
result can only arise from a processor success with identical bytes. -/
theorem submit_iso8583_passthrough
    (process : List Nat → Except DomainError (List Nat)) (iso_msg : List Nat) :
    (∀ r, process iso_msg = .ok r → submit_iso8583 process iso_msg = .ok r) ∧
    (∀ e, process iso_msg = .error e →
      submit_iso8583 process iso_msg = .error (mapDomainError e)) ∧
    (∀ r, submit_iso8583 process iso_msg = .ok r → process iso_msg = .ok r) := by
  refine ⟨fun r h => by simp [submit_iso8583, h], fun e h => by simp [submit_iso8583, h],
    fun r h => ?_⟩
  cases hp : process iso_msg with
  | ok v => simp [submit_iso8583, hp] at h; simp [hp, h]
  | error e => simp [submit_iso8583, hp] at h

/-- Witness for C9 at concrete inputs. -/
theorem submit_iso8583_passthrough_witness :
    submit_iso8583 (fun _ => .ok [9, 9]) [1, 2] = .ok [9, 9] ∧
    submit_iso8583 (fun _ => .error (.ApiError "boom")) [1, 2] =
      .error .InternalError := by
  constructor
  · exact (submit_iso8583_passthrough (fun _ => .ok [9, 9]) [1, 2]).1 _ rfl
  · exact (submit_iso8583_passthrough (fun _ => .error (.ApiError "boom")) [1, 2]).2.1
      (.ApiError "boom") rfl

/-- C8: `get_bank_account` returns the same caller-facing code,
`InvalidParams`, both when the card number resolves to no account and when
the store lookup fails with any error. -/
theorem get_bank_account_uniform_invalid_params
    (find_by_card_number : String → Except DomainError (Option BankAccount))
    (card_number : String) :
    (∀ e, find_by_card_number card_number = .error e →
      get_bank_account find_by_card_number card_number = .error .InvalidParams) ∧
    (find_by_card_number card_number = .ok none →
      get_bank_account find_by_card_number card_number = .error .InvalidParams) := by
  constructor
  · intro e h; simp [get_bank_account, h]
  · intro h; simp [get_bank_account, h]

/-- Witness for C8: a not-found card and a failing store both produce
`InvalidParams` at concrete inputs. -/
theorem get_bank_account_uniform_invalid_params_witness :
    get_bank_account (fun _ => .ok none) "4242424242424242" =
      .error .InvalidParams ∧
    get_bank_account (fun _ => .error (.InternalServerError "db"))
      "4242424242424242" = .error .InvalidParams := by
  constructor
  · exact (get_bank_account_uniform_invalid_params (fun _ => .ok none) _).2 rfl
  · exact (get_bank_account_uniform_invalid_params
      (fun _ => .error (.InternalServerError "db")) _).1 _ rfl

/-- C4: a signature that does not decode to the fixed 64-byte sr25519 size
makes `get_batch_balances` return `InvalidParams`, and a well-shaped
signature that fails verification against the canonical message under the
configured OCW key also returns `InvalidParams`; the call never returns
`InternalError`, so the two failures are indistinguishable to the caller. -/
theorem get_batch_balances_signature_failures
    (verify : List Nat → List Char → PublicKey → Bool)
    (find : String → Except DomainError (Option BankAccount))
    (signer : PublicKey) (signature : List Nat) (account_ids : List String) :
    (signature.length ≠ SIGNATURE_SIZE →
      get_batch_balances verify find signer signature account_ids =
        .error .InvalidParams) ∧
    (verify signature (canonicalMessage account_ids) signer = false →
      get_batch_balances verify find signer signature account_ids =
        .error .InvalidParams) ∧
    get_batch_balances verify find signer signature account_ids ≠
      .error .InternalError := by
  refine ⟨fun h => by simp [get_batch_balances, h], fun h => ?_, fun h => ?_⟩
  · by_cases hl : signature.length = SIGNATURE_SIZE <;>
      simp [get_batch_balances, hl, h]
  · by_cases hl : signature.length = SIGNATURE_SIZE
    · by_cases hv : verify signature (canonicalMessage account_ids) signer
      · simp only [get_batch_balances, hl, hv, if_true, if_pos rfl] at h
        exact absurd (batchLookup_error_exists find account_ids _ h).1 (by decide)
      · simp [get_batch_balances, hl, hv] at h
    · simp [get_batch_balances, hl] at h

/-- Witness for C4: a 3-byte signature and a rejected 64-byte signature
both yield `InvalidParams` on a concrete request. -/
theorem get_batch_balances_signature_failures_witness :
    get_batch_balances (fun _ _ _ => true) (fun _ => .ok none) ⟨[]⟩
      [0, 1, 2] ["acc"] = .error .InvalidParams ∧
    get_batch_balances (fun _ _ _ => false) (fun _ => .ok none) ⟨[]⟩
      (List.replicate 64 0) ["acc"] = .error .InvalidParams := by
  constructor
  · exact (get_batch_balances_signature_failures _ _ _ _ _).1 (by decide)
  · exact (get_batch_balances_signature_failures _ _ _ _ _).2.1 rfl

/-- C5: if some requested identifier's store lookup fails with an error
(rather than returning not-found), the whole `get_batch_balances` call
returns a caller-facing error and no partial result list. -/
theorem get_batch_balances_store_error_aborts
    (verify : List Nat → List Char → PublicKey → Bool)
    (find : String → Except DomainError (Option BankAccount))
    (signer : PublicKey) (signature : List Nat) (account_ids : List String)
    (hsig : signature.length = SIGNATURE_SIZE)
    (hver : verify signature (canonicalMessage account_ids) signer = true)
    (hmem : ∃ id ∈ account_ids, ∃ e, find id = .error e) :
    get_batch_balances verify find signer signature account_ids =
      .error .InvalidParams := by
  simp only [get_batch_balances, hsig, hver, if_true, if_pos rfl]
  exact batchLookup_error_of_find_error find account_ids hmem

/-- Witness for C5: a store whose lookup of "B" fails aborts the whole
concrete batch call with `InvalidParams`. -/
theorem get_batch_balances_store_error_aborts_witness :
    get_batch_balances (fun _ _ _ => true)
      (fun id => if id = "B" then .error (.ApiError "db down")
                 else .ok (some ⟨"u1", "c1", 100, 0⟩))
      ⟨[]⟩ (List.replicate 64 0) ["A", "B", "C"] = .error .InvalidParams := by
  exact get_batch_balances_store_error_aborts _ _ _ _ _ (by decide) rfl
    ⟨"B", by decide, .ApiError "db down", rfl⟩

/-- C2: once the signature verifies (and no store lookup fails), the call
returns exactly the `(id, balance)` pairs of the identifiers that resolve
to existing accounts, in input order; unresolved identifiers are silently
omitted, and every returned entry comes from an account that exists. -/
theorem get_batch_balances_aggregation
    (verify : List Nat → List Char → PublicKey → Bool)
    (find : String → Except DomainError (Option BankAccount))
    (signer : PublicKey) (signature : List Nat) (account_ids : List String)
    (hsig : signature.length = SIGNATURE_SIZE)
    (hver : verify signature (canonicalMessage account_ids) signer = true)
    (hok : ∀ id ∈ account_ids, ∃ r, find id = .ok r) :
    get_batch_balances verify find signer signature account_ids =
      .ok (account_ids.filterMap (fun id =>
        match find id with
        | .ok (some ba) => some (id, ba.balance)
        | _ => none)) ∧
    ∀ p ∈ account_ids.filterMap (fun id =>
        match find id with
        | .ok (some ba) => some (id, ba.balance)
        | _ => none),
      ∃ ba, find p.1 = .ok (some ba) ∧ p.2 = ba.balance := by
  constructor
  · simp only [get_batch_balances, hsig, hver, if_true, if_pos rfl]
    exact batchLookup_eq_filterMap find account_ids hok
  · intro p hp
    obtain ⟨id, hmem, hf⟩ := List.mem_filterMap.mp hp
    cases hfind : find id with
    | error e => rw [hfind] at hf; simp at hf
    | ok v =>
      cases v with
      | none => rw [hfind] at hf; simp at hf
      | some ba =>
        rw [hfind] at hf
        simp only [Option.some.injEq] at hf
        exact ⟨ba, by rw [← hf, hfind], by rw [← hf]⟩

/-- Witness for C2: with accounts "A" and "C" present and "B" absent, the
concrete call returns exactly `[("A", 100), ("C", 300)]`. -/
theorem get_batch_balances_aggregation_witness :
    get_batch_balances (fun _ _ _ => true)
      (fun id => if id = "A" then .ok (some ⟨"u1", "c1", 100, 0⟩)
                 else if id = "C" then .ok (some ⟨"u3", "c3", 300, 0⟩)
                 else .ok none)
      ⟨[]⟩ (List.replicate 64 0) ["A", "B", "C"] =
      .ok [("A", 100), ("C", 300)] := by
  have h := (get_batch_balances_aggregation (fun _ _ _ => true)
    (fun id => if id = "A" then .ok (some ⟨"u1", "c1", 100, 0⟩)
               else if id = "C" then .ok (some ⟨"u3", "c3", 300, 0⟩)
               else .ok none)
    ⟨[]⟩ (List.replicate 64 0) ["A", "B", "C"] (by decide) rfl
    (by intro id hmem; fin_cases hmem <;> exact ⟨_, rfl⟩)).1
  rw [h]
  rfl

/-- C10: `get_batch_balances` performs no emptiness check: with a
well-shaped signature that verifies over the message built from the empty
list, the empty request succeeds with an empty result list; and every
error the call can return comes from signature shape, verification
failure, or a failing store lookup — never from emptiness. -/
theorem get_batch_balances_no_emptiness_check
    (verify : List Nat → List Char → PublicKey → Bool)
    (find : String → Except DomainError (Option BankAccount))
    (signer : PublicKey) (signature : List Nat) :
    (signature.length = SIGNATURE_SIZE →
      verify signature (canonicalMessage []) signer = true →
      get_batch_balances verify find signer signature [] = .ok []) ∧
    (∀ (account_ids : List String) (c : ErrorCode),
      get_batch_balances verify find signer signature account_ids = .error c →
      signature.length ≠ SIGNATURE_SIZE ∨
      verify signature (canonicalMessage account_ids) signer = false ∨
      ∃ id ∈ account_ids, ∃ e, find id = .error e) := by
  constructor
  · intro hsig hver
    simp [get_batch_balances, hsig, hver, batchLookup]
  · intro account_ids c h
    by_cases hl : signature.length = SIGNATURE_SIZE
    · by_cases hv : verify signature (canonicalMessage account_ids) signer
      · simp only [get_batch_balances, hl, hv, if_true, if_pos rfl] at h
        exact .inr (.inr (batchLookup_error_exists find account_ids c h).2)
      · exact .inr (.inl (by simpa using hv))
    · exact .inl hl

/-- Witness for C10: the concrete empty-list call with an accepting
verifier returns the empty result list rather than an error. -/
theorem get_batch_balances_no_emptiness_check_witness :
    get_batch_balances (fun _ _ _ => true) (fun _ => .ok none) ⟨[]⟩
      (List.replicate 64 0) [] = .ok [] := by
  exact (get_batch_balances_no_emptiness_check _ _ _ _).1 (by decide) rfl

/-- C6 counterexample: on the empty identifier list the canonical-message
construction builds the single byte `]` — the `pop()` removes the opening
bracket, since no comma was ever pushed — so the built buffer contains no
comma at all, refuting the trailing-comma description. -/
theorem canonicalMessage_empty_no_trailing_comma :
    canonicalMessage [] = [']'] ∧ ',' ∉ canonicalMessage [] := by decide

/-- C6 (amended): on the empty identifier list the construction builds the
malformed single-byte buffer `]` (not the empty JSON array `[]`), rather
than cleanly rejecting the empty input as a caller error. -/
theorem canonicalMessage_empty_malformed :
    canonicalMessage [] = [']'] ∧
    canonicalMessage [] ≠ minifiedJsonArray [] := by decide

/-- C7 counterexample: an `ApiError` (internal-kind failure) raised by the
card-number lookup surfaces from `get_transactions` as `InvalidParams`,
not `InternalError`: the card-number arm does not use the §4.4 mapper. -/
theorem get_transactions_card_error_counterexample :
    get_transactions (fun _ => .error (.ApiError "db down")) (fun _ => .ok [])
      "4111111111111111" = .error .InvalidParams ∧
    ErrorCode.InvalidParams ≠ ErrorCode.InternalError := by
  exact ⟨rfl, by decide⟩

/-- C7 (amended): in `get_transactions`, any failure of the card-number
lookup — including internal-kind failures — surfaces as `InvalidParams`,
as does a card number resolving to no account; only a failure of the
transaction lookup maps through the §4.4 taxonomy, so an internal-kind
failure there surfaces as `InternalError`. -/
theorem get_transactions_error_mapping
    (find_by_card_number : String → Except DomainError (Option BankAccount))
    (find_by_bank_account_id : String → Except DomainError (List Transaction))
    (card_number : String) :
    (∀ e, find_by_card_number card_number = .error e →
      get_transactions find_by_card_number find_by_bank_account_id
        card_number = .error .InvalidParams) ∧
    (find_by_card_number card_number = .ok none →
      get_transactions find_by_card_number find_by_bank_account_id
        card_number = .error .InvalidParams) ∧
    (∀ ba e, find_by_card_number card_number = .ok (some ba) →
      find_by_bank_account_id ba.id = .error e →
      get_transactions find_by_card_number find_by_bank_account_id
        card_number = .error (mapDomainError e)) := by
  refine ⟨fun e h => by simp [get_transactions, h],
    fun h => by simp [get_transactions, h],
    fun ba e hba he => by simp [get_transactions, hba, he]⟩

/-- Witness for C7 (amended) at concrete stores: a failing card lookup
gives `InvalidParams`, a missing account gives `InvalidParams`, and an
internal-kind transaction-lookup failure gives `InternalError`. -/
theorem get_transactions_error_mapping_witness :
    get_transactions (fun _ => .error (.InternalServerError "db"))
      (fun _ => .ok []) "4000" = .error .InvalidParams ∧
    get_transactions (fun _ => .ok none) (fun _ => .ok []) "4000" =
      .error .InvalidParams ∧
    get_transactions (fun _ => .ok (some ⟨"u1", "4000", 5, 0⟩))
      (fun _ => .error (.ApiError "db")) "4000" = .error .InternalError := by
  refine ⟨(get_transactions_error_mapping _ _ _).1 _ rfl,
    (get_transactions_error_mapping _ _ _).2.1 rfl,
    (get_transactions_error_mapping _ _ _).2.2 ⟨"u1", "4000", 5, 0⟩
      (.ApiError "db") rfl rfl⟩

lemma canonical_foldl (ids : List String) (acc : List Char) :
    ids.foldl (fun a id => a ++ '"' :: id.toList ++ ['"', ',']) acc
      = acc ++ (ids.map (fun id => quoteWrap id.toList ++ [','])).flatten := by
  induction ids generalizing acc with
  | nil => simp
  | cons a rest ih =>
    simp only [List.foldl_cons, List.map_cons, List.flatten_cons, ih, quoteWrap]
    simp [List.append_assoc]

lemma join_commaTerminated : ∀ (s : List Char) (rest : List (List Char)),
    ((s :: rest).map (fun t => quoteWrap t ++ [','])).flatten
      = quotedJoin (s :: rest) ++ [','] := by
  intro s rest
  induction rest generalizing s with
  | nil => simp [quotedJoin]
  | cons b bs ih =>
    have hq : quotedJoin (s :: b :: bs) = quoteWrap s ++ ',' :: quotedJoin (b :: bs) := rfl
    simp only [List.map_cons, List.flatten_cons] at *
    rw [hq, ih b]
    simp [List.append_assoc]

lemma canonicalMessage_eq_minified (ids : List String) (h : ids ≠ []) :
    canonicalMessage ids = minifiedJsonArray ids := by
  obtain ⟨a, rest, rfl⟩ := List.exists_cons_of_ne_nil h
  unfold canonicalMessage minifiedJsonArray
  rw [canonical_foldl]
  have hm : (a :: rest).map (fun id => quoteWrap id.toList ++ [','])
      = (a.toList :: rest.map String.toList).map (fun s => quoteWrap s ++ [',']) := by
    rw [← List.map_cons]
    rw [List.map_map]
    rfl
  rw [hm, join_commaTerminated]
  rw [← List.append_assoc, List.dropLast_concat]
  simp

lemma quote_delim : ∀ (s1 s2 t1 t2 : List Char), '"' ∉ s1 → '"' ∉ s2 →
    s1 ++ '"' :: t1 = s2 ++ '"' :: t2 → s1 = s2 ∧ t1 = t2 := by
  intro s1
  induction s1 with
  | nil =>
    intro s2 t1 t2 h1 h2 h
    cases s2 with
    | nil => simp only [List.nil_append, List.cons.injEq] at h; exact ⟨rfl, h.2⟩
    | cons c cs =>
      simp only [List.nil_append, List.cons_append, List.cons.injEq] at h
      cases h.1
      exact absurd (List.mem_cons_self _ _) h2
  | cons a as ih =>
    intro s2 t1 t2 h1 h2 h
    cases s2 with
    | nil =>
      simp only [List.nil_append, List.cons_append, List.cons.injEq] at h
      cases h.1
      exact absurd (List.mem_cons_self _ _) h1
    | cons b bs =>
      simp only [List.cons_append, List.cons.injEq] at h
      obtain ⟨hab, h'⟩ := h
      have h1' : '"' ∉ as := fun hm => h1 (List.mem_cons_of_mem _ hm)
      have h2' : '"' ∉ bs := fun hm => h2 (List.mem_cons_of_mem _ hm)
      obtain ⟨he, ht⟩ := ih bs t1 t2 h1' h2' h'
      exact ⟨by rw [hab, he], ht⟩

lemma quotedJoin_cons (s : List Char) (r : List (List Char)) :
    quotedJoin (s :: r) =
      '"' :: (s ++ '"' :: (if r = [] then [] else ',' :: quotedJoin r)) := by
  cases r with
  | nil => simp [quotedJoin, quoteWrap]
  | cons b bs =>
    have hq : quotedJoin (s :: b :: bs) = quoteWrap s ++ ',' :: quotedJoin (b :: bs) := rfl
    rw [hq]
    simp [quoteWrap, List.append_assoc]

lemma quotedJoin_inj : ∀ (l1 l2 : List (List Char)),
    (∀ s ∈ l1, '"' ∉ s) → (∀ s ∈ l2, '"' ∉ s) → l1 ≠ [] → l2 ≠ [] →
    quotedJoin l1 = quotedJoin l2 → l1 = l2 := by
  intro l1
  induction l1 with
  | nil => intro l2 _ _ h _ _; exact absurd rfl h
  | cons s1 r1 ih =>
    intro l2 hq1 hq2 _ hne2 heq
    cases l2 with
    | nil => exact absurd rfl hne2
    | cons s2 r2 =>
      rw [quotedJoin_cons, quotedJoin_cons] at heq
      simp only [List.cons.injEq, true_and] at heq
      obtain ⟨hs, hw⟩ := quote_delim s1 s2 _ _
        (hq1 s1 (List.mem_cons_self _ _)) (hq2 s2 (List.mem_cons_self _ _)) heq
      by_cases h1 : r1 = [] <;> by_cases h2 : r2 = []
      · rw [hs, h1, h2]
      · rw [h1, if_pos rfl, if_neg h2] at hw; simp at hw
      · rw [h2, if_pos rfl, if_neg h1] at hw; simp at hw
      · rw [if_neg h1, if_neg h2] at hw
        simp only [List.cons.injEq, true_and] at hw
        have hr := ih r2 (fun s hm => hq1 s (List.mem_cons_of_mem _ hm))
          (fun s hm => hq2 s (List.mem_cons_of_mem _ hm)) h1 h2 hw
        rw [hs, hr]

lemma string_toList_injective : Function.Injective String.toList := by
  intro a b h
  cases a; cases b
  simp only [String.toList] at h
  rw [h]

lemma canonicalMessage_inj (l1 l2 : List String) (h1ne : l1 ≠ []) (h2ne : l2 ≠ [])
    (hf1 : ∀ s ∈ l1, '"' ∉ s.toList) (hf2 : ∀ s ∈ l2, '"' ∉ s.toList)
    (heq : canonicalMessage l1 = canonicalMessage l2) : l1 = l2 := by
  rw [canonicalMessage_eq_minified l1 h1ne, canonicalMessage_eq_minified l2 h2ne] at heq
  unfold minifiedJsonArray at heq
  have hcons := List.append_cancel_right heq
  injection hcons with hhead hbody
  have hmap := quotedJoin_inj (l1.map String.toList) (l2.map String.toList)
    (by intro s hm; obtain ⟨x, hx, rfl⟩ := List.mem_map.mp hm; exact hf1 x hx)
    (by intro s hm; obtain ⟨x, hx, rfl⟩ := List.mem_map.mp hm; exact hf2 x hx)
    (by simpa using h1ne) (by simpa using h2ne) hbody
  exact List.map_injective_iff.mpr string_toList_injective hmap

/-- C1 counterexample: the two distinct lists `["a","a", a]` built from the
identifier strings `a","a` and `a` are permutations of each other, are not
equal, yet produce the same canonical message `["a","a","a"]`, because the
construction does not escape quote characters inside identifiers. -/
theorem canonicalMessage_permutation_collision :
    List.Perm ["a\",\"a", "a"] ["a", "a\",\"a"] ∧
    (["a\",\"a", "a"] : List String) ≠ ["a", "a\",\"a"] ∧
    (["a\",\"a", "a"] : List String) ≠ [] ∧
    canonicalMessage ["a\",\"a", "a"] = canonicalMessage ["a", "a\",\"a"] := by
  refine ⟨by decide, by decide, by decide, by decide⟩

/-- C1 (amended): for every non-empty identifier list the canonical
message is exactly the minified JSON-array pattern in input order; and for
identifiers free of the quote character, two permuted but unequal lists
always produce different canonical messages. -/
theorem canonicalMessage_spec :
    (∀ ids : List String, ids ≠ [] → canonicalMessage ids = minifiedJsonArray ids) ∧
    (∀ l1 l2 : List String, l1 ≠ [] →
      (∀ s ∈ l1, '"' ∉ s.toList) → (∀ s ∈ l2, '"' ∉ s.toList) →
      List.Perm l1 l2 → l1 ≠ l2 →
      canonicalMessage l1 ≠ canonicalMessage l2) := by
  refine ⟨canonicalMessage_eq_minified, ?_⟩
  intro l1 l2 h1ne hf1 hf2 hperm hne heq
  have h2ne : l2 ≠ [] := by
    intro h; rw [h] at hperm; exact h1ne hperm.eq_nil
  exact hne (canonicalMessage_inj l1 l2 h1ne h2ne hf1 hf2 heq)

/-- Witness for C1 (amended) at concrete quote-free identifier lists. -/
theorem canonicalMessage_spec_witness :
    canonicalMessage ["A", "B"] = minifiedJsonArray ["A", "B"] ∧
    canonicalMessage ["A", "B"] ≠ canonicalMessage ["B", "A"] := by
  constructor
  · exact canonicalMessage_spec.1 ["A", "B"] (by decide)
  · exact canonicalMessage_spec.2 ["A", "B"] ["B", "A"] (by decide) (by decide)
      (by decide) (by decide) (by decide)
